import Mathlib

/-!
# Verification of `notebooks/lib/youtube_loader.py`

A shallow embedding of the transcript loading module: the video-id
extractor (together with models of the `urllib.parse` helpers it calls),
the local transcript store (the filesystem is modelled as an association
list from path to file content), the remote fetcher (the external
`YouTubeTranscriptApi` call is an oracle parameter, returning either a
segment list or an exceptional failure), the unified resolver, the bulk
preloader and the curated-index reader.

Python strings are modelled as `List Char`.  Filesystem writes take an
explicit `writeOk` flag: the Python code swallows write errors, and the
flag lets theorems quantify over whether the underlying write succeeded.
Filesystem reads are modelled as total on the map: a Python read error is
indistinguishable from absence to every caller, so absent-or-unreadable
files are simply absent from the map.  `Path.read_text` opens its file in
text mode with `newline=None`, so reading applies universal-newline
translation (`\r\n` and `\r` become `\n`); the model reproduces this in
`load_local_transcript`, which makes the save-then-load composition the
translation rather than the identity.
-/

set_option autoImplicit false

namespace YoutubeLoader

/-- Python strings, modelled as lists of unicode scalar values. -/
abbrev Str := List Char

/-- The characters that Python `str.strip()` removes (Python's `str.isspace` set). -/
def isPySpace (c : Char) : Bool :=
  ([9, 10, 11, 12, 13, 28, 29, 30, 31, 32, 133, 160, 0x1680,
    0x2000, 0x2001, 0x2002, 0x2003, 0x2004, 0x2005, 0x2006, 0x2007,
    0x2008, 0x2009, 0x200A, 0x2028, 0x2029, 0x202F, 0x205F, 0x3000] : List Nat).contains c.toNat

/-- Model of Python `str.strip()`: drop leading and trailing whitespace. -/
def pyStrip (s : Str) : Str :=
  ((s.dropWhile isPySpace).reverse.dropWhile isPySpace).reverse

/-- Model of Python `str.strip(ch)` for a one-character strip set. -/
def stripChar (ch : Char) (s : Str) : Str :=
  ((s.dropWhile (fun c => c == ch)).reverse.dropWhile (fun c => c == ch)).reverse

/-!
## Filesystem model

`data/transcripts` is created at import time; files written later shadow
earlier contents (most recent write first in the association list).
-/

/-- The filesystem: a map from path to current file content. -/
abbrev FS := List (Str × Str)

/-- Read a file: the content of the most recent write to that path. -/
def fsRead (fs : FS) (p : Str) : Option Str := fs.lookup p

/-- Write a file, replacing previous content at that path. -/
def fsWrite (fs : FS) (p : Str) (content : Str) : FS := (p, content) :: fs

/-- Model of `Path.exists` over the filesystem map. -/
def fsExists (fs : FS) (p : Str) : Bool := (fsRead fs p).isSome

/-- `TRANSCRIPTS_DIR = DATA_DIR / "transcripts"` from the source. -/
def TRANSCRIPTS_DIR : Str := "data/transcripts".toList

/-- The path `TRANSCRIPTS_DIR / f"{video_id}.txt"` used by the local store. -/
def transcriptPath (video_id : Str) : Str :=
  TRANSCRIPTS_DIR ++ '/' :: video_id ++ ".txt".toList

/-- Universal-newline translation, applied by `Path.read_text` (text mode
with `newline=None`): each `\r\n` pair and each lone `\r` becomes `\n`. -/
def univNewlines : Str → Str
  | [] => []
  | c :: rest =>
    if c = '\r' then
      match rest with
      | [] => ['\n']
      | '\n' :: rest2 => '\n' :: univNewlines rest2
      | c2 :: rest2 => '\n' :: univNewlines (c2 :: rest2)
    else c :: univNewlines rest

/-- `load_local_transcript`: return the file's text as `read_text` yields
it — stored content with universal-newline translation applied — or `none`
when the file is absent (a Python read error is logged and reported as
`None`, which this model folds into absence). -/
def load_local_transcript (fs : FS) (video_id : Str) : Option Str :=
  (fsRead fs (transcriptPath video_id)).map univNewlines

/-- `save_local_transcript`: write the text to `{video_id}.txt` and return the
target path.  A failed write (modelled by `writeOk = false`) is swallowed: the
path is returned either way and the filesystem is left unchanged.
`write_text` translates `\n` to `os.linesep`, which is itself `\n` on the
POSIX systems this notebook code targets, so the stored content is the text
verbatim. -/
def save_local_transcript (writeOk : Bool) (fs : FS) (video_id : Str) (text : Str) :
    FS × Str :=
  (if writeOk then fsWrite fs (transcriptPath video_id) text else fs, transcriptPath video_id)

/-!
## Model of the `urllib.parse` helpers used by `extract_video_id`

`urlparse`, `parse_qs` and the percent-decoding they perform, following
CPython's `Lib/urllib/parse.py`.  The IPv6-bracket and netloc validation
steps of CPython raise on malformed input and are not modelled.
-/

/-- U+FFFD, emitted by UTF-8 decoding with `errors="replace"`. -/
def replacementChar : Char := Char.ofNat 0xFFFD

/-- A UTF-8 continuation byte. -/
def isUtf8Cont (b : Nat) : Bool := 0x80 ≤ b && b < 0xC0

/-- Admissible range for the byte after a 3-byte lead (excludes overlong
encodings and surrogates, as CPython's strict UTF-8 decoder does). -/
def utf8Cont3 (lead b : Nat) : Bool :=
  if lead = 0xE0 then 0xA0 ≤ b && b < 0xC0
  else if lead = 0xED then 0x80 ≤ b && b < 0xA0
  else isUtf8Cont b

/-- Admissible range for the byte after a 4-byte lead (excludes overlong
encodings and codepoints above U+10FFFF). -/
def utf8Cont4 (lead b : Nat) : Bool :=
  if lead = 0xF0 then 0x90 ≤ b && b < 0xC0
  else if lead = 0xF4 then 0x80 ≤ b && b < 0x90
  else isUtf8Cont b

/-- Model of `bytes.decode("utf-8", errors="replace")`: invalid bytes
become U+FFFD, consuming the maximal valid subpart of a sequence. -/
def utf8DecodeReplace : List Nat → Str
  | [] => []
  | b :: rest =>
    if b < 0x80 then Char.ofNat b :: utf8DecodeReplace rest
    else if b < 0xC2 then replacementChar :: utf8DecodeReplace rest
    else if b < 0xE0 then
      match rest with
      | [] => [replacementChar]
      | b1 :: rest1 =>
        if isUtf8Cont b1 then
          Char.ofNat ((b - 0xC0) * 0x40 + (b1 - 0x80)) :: utf8DecodeReplace rest1
        else replacementChar :: utf8DecodeReplace (b1 :: rest1)
    else if b < 0xF0 then
      match rest with
      | [] => [replacementChar]
      | b1 :: rest1 =>
        if utf8Cont3 b b1 then
          match rest1 with
          | [] => [replacementChar]
          | b2 :: rest2 =>
            if isUtf8Cont b2 then
              Char.ofNat ((b - 0xE0) * 0x1000 + (b1 - 0x80) * 0x40 + (b2 - 0x80)) ::
                utf8DecodeReplace rest2
            else replacementChar :: utf8DecodeReplace (b2 :: rest2)
        else replacementChar :: utf8DecodeReplace (b1 :: rest1)
    else if b < 0xF5 then
      match rest with
      | [] => [replacementChar]
      | b1 :: rest1 =>
        if utf8Cont4 b b1 then
          match rest1 with
          | [] => [replacementChar]
          | b2 :: rest2 =>
            if isUtf8Cont b2 then
              match rest2 with
              | [] => [replacementChar]
              | b3 :: rest3 =>
                if isUtf8Cont b3 then
                  Char.ofNat ((b - 0xF0) * 0x40000 + (b1 - 0x80) * 0x1000 +
                      (b2 - 0x80) * 0x40 + (b3 - 0x80)) :: utf8DecodeReplace rest3
                else replacementChar :: utf8DecodeReplace (b3 :: rest3)
            else replacementChar :: utf8DecodeReplace (b2 :: rest2)
        else replacementChar :: utf8DecodeReplace (b1 :: rest1)
    else replacementChar :: utf8DecodeReplace rest

/-- The value of one hexadecimal digit, upper or lower case, as `unquote`'s
`_hextobyte` table accepts it (`none` on every other character). -/
def hexDigitVal (c : Char) : Option Nat :=
  let n := c.toNat
  if 0x30 ≤ n ∧ n ≤ 0x39 then some (n - 0x30)
  else if 0x61 ≤ n ∧ n ≤ 0x66 then some (n - 0x61 + 10)
  else if 0x41 ≤ n ∧ n ≤ 0x46 then some (n - 0x41 + 10)
  else none

/-- Worker for `unquote`: accumulate the bytes of the current maximal ASCII
run (`acc`, reversed), flushing them through UTF-8 decoding at a non-ASCII
character and at the end of the string.  `%hh` contributes the byte `hh`; a
`%` not followed by two hex digits stays literal. -/
def unquoteLoop : Str → List Nat → Str
  | [], acc => utf8DecodeReplace acc.reverse
  | '%' :: c1 :: c2 :: rest, acc =>
    match hexDigitVal c1, hexDigitVal c2 with
    | some h1, some h2 => unquoteLoop rest ((h1 * 16 + h2) :: acc)
    | _, _ => unquoteLoop (c1 :: c2 :: rest) (0x25 :: acc)
  | c :: rest, acc =>
    if c.toNat < 0x80 then unquoteLoop rest (c.toNat :: acc)
    else utf8DecodeReplace acc.reverse ++ c :: unquoteLoop rest []

/-- Model of `urllib.parse.unquote` with the default UTF-8 / replace
handling: `%hh` escapes inside ASCII runs are decoded as UTF-8 bytes,
non-ASCII characters pass through unchanged. -/
def unquote (s : Str) : Str :=
  if s.contains '%' then unquoteLoop s [] else s

/-- The `.replace("+", " ")` step `parse_qsl` applies before unquoting. -/
def plusToSpace (s : Str) : Str :=
  s.map (fun c => if c = '+' then ' ' else c)

/-- Model of `urllib.parse.parse_qsl` with its default arguments: split the
query on `&`, skip empty fields, fields without `=` and fields with an empty
value, and decode `+` and percent-escapes in names and values. -/
def parse_qsl (qs : Str) : List (Str × Str) :=
  let query_args := if qs.isEmpty then [] else qs.splitOn '&'
  query_args.filterMap (fun name_value =>
    if name_value.isEmpty then none
    else if name_value.contains '=' then
      let n := name_value.takeWhile (fun c => c != '=')
      let v := (name_value.dropWhile (fun c => c != '=')).drop 1
      if v.isEmpty then none
      else some (unquote (plusToSpace n), unquote (plusToSpace v))
    else none)

/-- Group one `(name, value)` pair into the accumulating association list,
appending the value to an existing entry for the name. -/
def appendQS : List (Str × List Str) → Str × Str → List (Str × List Str)
  | [], (n, v) => [(n, [v])]
  | (m, vs) :: rest, (n, v) =>
    if m = n then (m, vs ++ [v]) :: rest else (m, vs) :: appendQS rest (n, v)

/-- Model of `urllib.parse.parse_qs`: each name maps to its values in query
order; a name is present exactly when it has at least one kept value. -/
def parse_qs (qs : Str) : List (Str × List Str) :=
  (parse_qsl qs).foldl appendQS []

/-- The record CPython's `urlparse` returns (the fields the source reads,
plus the path parameter component `urlparse` splits off). -/
structure UrlParseResult where
  scheme : Str
  netloc : Str
  path : Str
  urlParams : Str
  query : Str
  fragment : Str

/-- WHATWG C0-control-or-space characters, lstripped by `urlsplit`. -/
def isC0ControlOrSpace (c : Char) : Bool := c.toNat ≤ 0x20

/-- Tab, CR and LF, removed from the whole URL by `urlsplit`. -/
def isUnsafeUrlByte (c : Char) : Bool := c == '\t' || c == '\r' || c == '\n'

/-- CPython's `scheme_chars`: ASCII alphanumerics plus `+`, `-`, `.`. -/
def isSchemeChar (c : Char) : Bool := c.isAlphanum || c == '+' || c == '-' || c == '.'

/-- Split the scheme off a URL: CPython accepts a scheme when a `:` occurs
after a nonempty prefix of scheme characters starting with an ASCII letter,
and lowercases it. -/
def splitScheme (url : Str) : Str × Str :=
  let pre := url.takeWhile (fun c => c != ':')
  if pre.length < url.length ∧ 0 < pre.length ∧ (pre.headD ' ').isAlpha = true ∧
      pre.all isSchemeChar = true then
    (pre.map Char.toLower, url.drop (pre.length + 1))
  else ([], url)

/-- `_splitnetloc`: the netloc runs from after `//` to the first of
`/`, `?` or `#`. -/
def splitNetloc (r : Str) : Str × Str :=
  (r.takeWhile (fun c => !(c == '/' || c == '?' || c == '#')),
   r.dropWhile (fun c => !(c == '/' || c == '?' || c == '#')))

/-- Model of `urllib.parse.urlsplit`: lstrip unsafe leading characters,
remove tab/CR/LF, then split scheme, netloc, fragment and query in CPython's
order.  The `urlParams` field is filled in by `urlparse`. -/
def urlsplit (url0 : Str) : UrlParseResult :=
  let url1 := url0.dropWhile isC0ControlOrSpace
  let url2 := url1.filter (fun c => !isUnsafeUrlByte c)
  let sr := splitScheme url2
  let nl := if sr.2.take 2 = ['/', '/'] then splitNetloc (sr.2.drop 2) else ([], sr.2)
  let rest3 := nl.2.takeWhile (fun c => c != '#')
  let fragment := (nl.2.dropWhile (fun c => c != '#')).drop 1
  let path := rest3.takeWhile (fun c => c != '?')
  let query := (rest3.dropWhile (fun c => c != '?')).drop 1
  { scheme := sr.1, netloc := nl.1, path := path, urlParams := [],
    query := query, fragment := fragment }

/-- `_splitparams`: split the path's parameter component at the first `;`
at or after the last `/` (or anywhere when the path has no `/`). -/
def splitParams (p : Str) : Str × Str :=
  if p.contains '/' then
    let revp := p.reverse
    let lastSeg := (revp.takeWhile (fun c => c != '/')).reverse
    let front := (revp.dropWhile (fun c => c != '/')).reverse
    if lastSeg.contains ';' then
      (front ++ lastSeg.takeWhile (fun c => c != ';'),
       (lastSeg.dropWhile (fun c => c != ';')).drop 1)
    else (p, [])
  else (p.takeWhile (fun c => c != ';'), (p.dropWhile (fun c => c != ';')).drop 1)

/-- Model of `urllib.parse.urlparse`: `urlsplit`, then split the path's
parameter component off when the path contains `;`. -/
def urlparse (s : Str) : UrlParseResult :=
  let r := urlsplit s
  if r.path.contains ';' then
    let pp := splitParams r.path
    { r with path := pp.1, urlParams := pp.2 }
  else r

/-!
## `extract_video_id`
-/

/-- Model of Python's substring test `needle in hay`. -/
def isSubstring (needle : Str) : Str → Bool
  | [] => needle.isEmpty
  | c :: rest => needle.isPrefixOf (c :: rest) || isSubstring needle rest

/-- The standard-domain marker checked by `extract_video_id`. -/
def ytMarker : Str := "youtube.com".toList

/-- The short-link-domain marker checked by `extract_video_id`. -/
def shortMarker : Str := "youtu.be".toList

/-- The query-parameter name carrying the video id on standard URLs. -/
def vKey : Str := "v".toList

/-- `extract_video_id`: return the trimmed input when it carries neither
hosting-domain marker; otherwise parse it as a URL and take the `v` query
parameter (standard domain), the path after the leading slash (short
domain), or the last slash-separated path segment (fallback).
`parse_qs` never produces an empty value list, so the `headD` default is
unreachable on the branch that uses it. -/
def extract_video_id (video_url_or_id : Str) : Str :=
  if isSubstring ytMarker video_url_or_id = false ∧
      isSubstring shortMarker video_url_or_id = false then
    pyStrip video_url_or_id
  else
    let parsed := urlparse video_url_or_id
    match (if isSubstring ytMarker parsed.netloc then (parse_qs parsed.query).lookup vKey
           else none) with
    | some vs => vs.headD []
    | none =>
      if isSubstring shortMarker parsed.netloc then
        parsed.path.dropWhile (fun c => c == '/')
      else ((stripChar '/' parsed.path).splitOn '/').getLastD []

/-!
## Remote fetcher

`YouTubeTranscriptApi.get_transcript` is external; it is modelled as an
oracle from video id and language list to either a list of segment texts
(each segment's `s.get("text", "")`, so a missing key is the empty string)
or an exceptional failure.  All exception types are caught and collapse to
`None`, so a single error case suffices.
-/

/-- The oracle standing for `YouTubeTranscriptApi.get_transcript`. -/
abbrev YtApi := Str → List Str → Except Unit (List Str)

/-- The default language preference `["en", "en-US"]`. -/
def defaultLanguages : List Str := ["en".toList, "en-US".toList]

/-- `fetch_youtube_transcript`: `None` when the integration is unavailable
or the call fails; otherwise join the non-blank stripped segment texts with
newlines, returning `None` in place of an empty result. -/
def fetch_youtube_transcript (ytAvailable : Bool) (api : YtApi)
    (video_id : Str) (languages : Option (List Str)) : Option Str :=
  if ytAvailable = false then none
  else
    let langs := languages.getD defaultLanguages
    match api video_id langs with
    | Except.error _ => none
    | Except.ok segments =>
      let text := List.intercalate ['\n'] ((segments.map pyStrip).filter (fun s => !s.isEmpty))
      if text.isEmpty then none else some text

/-!
## Unified resolver
-/

/-- The provenance record `get_or_create_transcript` builds. -/
structure Meta where
  video_id : Str
  source : Str
  saved_locally : Bool
deriving DecidableEq

/-- Everything a call to `get_or_create_transcript` produces: the returned
transcript and meta, the filesystem afterwards, and whether the remote
fetcher was invoked. -/
structure ResolveResult where
  transcript : Option Str
  meta : Meta
  fs : FS
  fetchCalled : Bool
deriving DecidableEq

/-- Python truthiness of an optional string: a value that is neither `None`
nor empty. -/
def truthy : Option Str → Bool
  | some t => !t.isEmpty
  | none => false

/-- `get_or_create_transcript`: local transcript first, then the optional
YouTube fallback, persisting a fetched transcript when `save_downloaded`
(the write is attempted through `save_local_transcript`; `saved_locally` is
set whether or not the write succeeded).  The `getD` passed to the save is
only evaluated when the fetch returned a value. -/
def get_or_create_transcript (ytAvailable : Bool) (api : YtApi) (writeOk : Bool)
    (fs : FS) (video_url_or_id : Str)
    (use_youtube_fallback : Bool) (save_downloaded : Bool)
    (languages : Option (List Str)) : ResolveResult :=
  let video_id := extract_video_id video_url_or_id
  let meta0 : Meta := { video_id := video_id, source := "none".toList, saved_locally := false }
  let localText := load_local_transcript fs video_id
  if truthy localText then
    { transcript := localText, meta := { meta0 with source := "local".toList },
      fs := fs, fetchCalled := false }
  else if use_youtube_fallback then
    let yt := fetch_youtube_transcript ytAvailable api video_id languages
    if truthy yt then
      if save_downloaded then
        { transcript := yt,
          meta := { meta0 with source := "youtube".toList, saved_locally := true },
          fs := (save_local_transcript writeOk fs video_id (yt.getD [])).1,
          fetchCalled := true }
      else
        { transcript := yt, meta := { meta0 with source := "youtube".toList },
          fs := fs, fetchCalled := true }
    else { transcript := none, meta := meta0, fs := fs, fetchCalled := true }
  else { transcript := none, meta := meta0, fs := fs, fetchCalled := false }

/-!
## Bulk preloader and curated index
-/

/-- One catalog entry: `{"title": ..., "url": ...}` (`title` is read with
`v.get("title", "")`, so a missing title is the empty string). -/
structure CatalogEntry where
  title : Str
  url : Str

/-- One entry of the curated index produced by the bulk preloader. -/
structure IndexEntry where
  collection : Str
  title : Str
  url : Str
  video_id : Str
  transcript_source : Str
  transcript_path : Option Str

/-- The persistent state the module touches: the transcript files and the
`data/curated_index.json` file (holding a serialized entry list when it
exists). -/
structure Store where
  fs : FS
  curatedIndex : Option (List IndexEntry)

/-- The loop body of `preload_curated_transcripts` for one video: resolve
with persistence enabled, then independently re-check the transcript file's
existence to decide the reported `transcript_path`.  The inter-item `sleep`
has no observable effect in this model. -/
def preloadEntry (ytAvailable : Bool) (api : YtApi) (writeOk : Bool)
    (use_youtube_fallback : Bool) (collection : Str) (v : CatalogEntry)
    (fs : FS) : IndexEntry × FS :=
  let r := get_or_create_transcript ytAvailable api writeOk fs v.url
      use_youtube_fallback true none
  let video_id := r.meta.video_id
  let p := transcriptPath video_id
  ({ collection := collection, title := v.title, url := v.url, video_id := video_id,
     transcript_source := r.meta.source,
     transcript_path := if fsExists r.fs p then some p else none }, r.fs)

/-- The inner loop of `preload_curated_transcripts`: one collection's videos
in list order, appending one index entry per video. -/
def preloadVideos (ytAvailable : Bool) (api : YtApi) (writeOk : Bool)
    (use_youtube_fallback : Bool) (collection : Str) :
    List CatalogEntry → List IndexEntry → FS → List IndexEntry × FS
  | [], index, fs => (index, fs)
  | v :: vs, index, fs =>
    let r := preloadEntry ytAvailable api writeOk use_youtube_fallback collection v fs
    preloadVideos ytAvailable api writeOk use_youtube_fallback collection vs
      (index ++ [r.1]) r.2

/-- The outer loop of `preload_curated_transcripts`: collections in map
(insertion) order. -/
def preloadCollections (ytAvailable : Bool) (api : YtApi) (writeOk : Bool)
    (use_youtube_fallback : Bool) :
    List (Str × List CatalogEntry) → List IndexEntry → FS → List IndexEntry × FS
  | [], index, fs => (index, fs)
  | cv :: rest, index, fs =>
    let r := preloadVideos ytAvailable api writeOk use_youtube_fallback cv.1 cv.2 index fs
    preloadCollections ytAvailable api writeOk use_youtube_fallback rest r.1 r.2

/-- `preload_curated_transcripts`: process every catalog entry in iteration
order, then overwrite `data/curated_index.json` with the full entry list and
return it. -/
def preload_curated_transcripts (ytAvailable : Bool) (api : YtApi) (writeOk : Bool)
    (st : Store) (curated_map : List (Str × List CatalogEntry))
    (use_youtube_fallback : Bool) : List IndexEntry × Store :=
  let r := preloadCollections ytAvailable api writeOk use_youtube_fallback curated_map [] st.fs
  (r.1, { fs := r.2, curatedIndex := some r.1 })

/-- `load_curated_index`: the parsed entry list from
`data/curated_index.json`, or `[]` when the file does not exist (an error is
logged, nothing is raised). -/
def load_curated_index (st : Store) : List IndexEntry :=
  match st.curatedIndex with
  | none => []
  | some entries => entries

/-- The `(collection, title, url)` key identifying which catalog entry an
index entry was produced from. -/
def entryKey (e : IndexEntry) : Str × Str × Str := (e.collection, e.title, e.url)

/-- All `(collection, title, url)` triples of a catalog, in iteration order:
collections in map order, entries within a collection in list order. -/
def catalogTriples (curated_map : List (Str × List CatalogEntry)) : List (Str × Str × Str) :=
  curated_map.flatMap (fun cv => cv.2.map (fun v => (cv.1, v.title, v.url)))

/-!
## Helper lemmas
-/

/-- Reading back the path just written yields the written content. -/
theorem fsRead_fsWrite_self (fs : FS) (p t : Str) : fsRead (fsWrite fs p t) p = some t := by
  simp [fsRead, fsWrite, List.lookup]

/-- Universal-newline translation fixes every string without carriage
returns. -/
theorem univNewlines_eq_self {s : Str} (h : '\r' ∉ s) : univNewlines s = s := by
  induction s with
  | nil => rfl
  | cons c rest ih =>
    rw [List.mem_cons, not_or] at h
    rw [univNewlines.eq_def]
    dsimp only
    rw [if_neg (fun hc => h.1 hc.symm), ih h.2]

/-- Loading right after a successful save yields the newline-translated
saved text. -/
theorem load_after_save (fs : FS) (video_id text : Str) :
    load_local_transcript (save_local_transcript true fs video_id text).1 video_id =
      some (univNewlines text) := by
  simp only [load_local_transcript, save_local_transcript, if_true]
  rw [fsRead_fsWrite_self]
  rfl

/-- A nonempty string is truthy. -/
theorem truthy_some_of_ne_nil {t : Str} (h : t ≠ []) : truthy (some t) = true := by
  cases t with
  | nil => exact absurd rfl h
  | cons c cs => rfl

/-- `fetch_youtube_transcript` never returns the empty string: the final
`text if text else None` guard replaces an empty join by `None`. -/
theorem fetch_some_ne_nil {ytAvailable : Bool} {api : YtApi} {video_id : Str}
    {languages : Option (List Str)} {t : Str}
    (h : fetch_youtube_transcript ytAvailable api video_id languages = some t) :
    t ≠ [] := by
  unfold fetch_youtube_transcript at h
  by_cases hav : ytAvailable = false
  · rw [if_pos hav] at h
    exact absurd h (by simp)
  · rw [if_neg hav] at h
    dsimp only at h
    cases hapi : api video_id (languages.getD defaultLanguages) with
    | error e => rw [hapi] at h; exact absurd h (by simp)
    | ok segments =>
      rw [hapi] at h
      simp only at h
      by_cases hemp :
          (List.intercalate ['\n']
            ((segments.map pyStrip).filter (fun s => !s.isEmpty))).isEmpty = true
      · rw [if_pos hemp] at h
        exact absurd h (by simp)
      · rw [if_neg hemp] at h
        intro hnil
        apply hemp
        rw [Option.some.inj h, hnil]
        rfl

/-!
## Claim theorems
-/

/-- C4: for every input string containing neither hosting-domain marker
(`"youtube.com"`, `"youtu.be"`), `extract_video_id` returns the input with
surrounding whitespace trimmed and otherwise unchanged. -/
theorem extract_id_no_marker_strips (s : Str)
    (h1 : isSubstring ytMarker s = false) (h2 : isSubstring shortMarker s = false) :
    extract_video_id s = pyStrip s := by
  unfold extract_video_id
  rw [h1, h2]
  simp

/-- Witness for C4 at the concrete input `"  abc123 "`. -/
theorem extract_id_no_marker_strips_witness :
    extract_video_id "  abc123 ".toList = "abc123".toList :=
  (extract_id_no_marker_strips "  abc123 ".toList (by decide) (by decide)).trans (by decide)

/-- C6 counterexample: the round trip is not the identity for every text —
saving `"a\rb"` loads back as `"a\nb"`, because `read_text` applies
universal-newline translation. -/
theorem save_load_roundtrip_counterexample :
    load_local_transcript
        (save_local_transcript true [] "v".toList ['a', '\r', 'b']).1 "v".toList =
      some ['a', '\n', 'b'] ∧
    ¬ load_local_transcript
        (save_local_transcript true [] "v".toList ['a', '\r', 'b']).1 "v".toList =
      some ['a', '\r', 'b'] := by
  constructor
  · decide
  · decide

/-- C6 (amended): saving a transcript for an identifier and then loading
that identifier returns the saved text with universal-newline translation
applied (`\r\n` and `\r` become `\n`); in particular the identical text
whenever the saved text contains no carriage return (the write itself
succeeding, i.e. not externally interfered with). -/
theorem save_load_roundtrip_amended (fs : FS) (video_id text : Str) :
    load_local_transcript (save_local_transcript true fs video_id text).1 video_id =
      some (univNewlines text) ∧
    ('\r' ∉ text →
      load_local_transcript (save_local_transcript true fs video_id text).1 video_id =
        some text) := by
  refine ⟨load_after_save fs video_id text, fun h => ?_⟩
  rw [load_after_save fs video_id text, univNewlines_eq_self h]

/-- Witness for amended C6: a carriage-return-free text round-trips
identically. -/
theorem save_load_roundtrip_amended_witness :
    load_local_transcript
        (save_local_transcript true [] "v".toList "hello".toList).1 "v".toList =
      some "hello".toList :=
  (save_load_roundtrip_amended [] "v".toList "hello".toList).2 (by decide)

/-- C8: `load_curated_index` returns the empty sequence when the index file
does not exist (without raising), and the parsed entry sequence stored in
the file when it does. -/
theorem load_curated_index_spec :
    (∀ st : Store, st.curatedIndex = none → load_curated_index st = []) ∧
    (∀ (st : Store) (entries : List IndexEntry), st.curatedIndex = some entries →
      load_curated_index st = entries) := by
  constructor
  · intro st h
    unfold load_curated_index
    rw [h]
  · intro st entries h
    unfold load_curated_index
    rw [h]

/-- Witness for C8: both branches at concrete stores. -/
theorem load_curated_index_spec_witness :
    load_curated_index { fs := [], curatedIndex := none } = [] ∧
    load_curated_index { fs := [], curatedIndex := some [] } = [] :=
  ⟨load_curated_index_spec.1 _ rfl, load_curated_index_spec.2 _ [] rfl⟩

/-- C1: when the canonical identifier has a non-empty transcript file in
the local store, `get_or_create_transcript` returns that local text with
`source = "local"` and `saved_locally = false`, leaves the filesystem
unchanged and never invokes the remote fetcher, regardless of the
`use_youtube_fallback` and `save_downloaded` arguments. -/
theorem local_hit_returns_local (ytAvailable : Bool) (api : YtApi)
    (writeOk use_youtube_fallback save_downloaded : Bool)
    (languages : Option (List Str)) (fs : FS) (url t : Str)
    (hload : load_local_transcript fs (extract_video_id url) = some t)
    (hne : t ≠ []) :
    get_or_create_transcript ytAvailable api writeOk fs url use_youtube_fallback
        save_downloaded languages =
      { transcript := some t,
        meta := { video_id := extract_video_id url, source := "local".toList,
                  saved_locally := false },
        fs := fs, fetchCalled := false } := by
  unfold get_or_create_transcript
  dsimp only
  rw [hload, truthy_some_of_ne_nil hne]
  simp

/-- Witness for C1 at a one-file store and a bare identifier. -/
theorem local_hit_returns_local_witness :
    get_or_create_transcript false (fun _ _ => Except.error ())
        true [(transcriptPath "abc".toList, "hello".toList)] "abc".toList true true none =
      { transcript := some "hello".toList,
        meta := { video_id := extract_video_id "abc".toList, source := "local".toList,
                  saved_locally := false },
        fs := [(transcriptPath "abc".toList, "hello".toList)], fetchCalled := false } :=
  local_hit_returns_local false (fun _ _ => Except.error ()) true true true none
    [(transcriptPath "abc".toList, "hello".toList)] "abc".toList "hello".toList
    (by decide) (by decide)

/-- C7: with no non-empty local transcript and the fallback disabled,
`get_or_create_transcript` returns `None` with `source = "none"` and
`saved_locally = false`, independently of the remote integration's
availability or behavior, and the remote fetcher is not invoked. -/
theorem no_local_no_fallback_returns_none (ytAvailable : Bool) (api : YtApi)
    (writeOk save_downloaded : Bool) (languages : Option (List Str))
    (fs : FS) (url : Str)
    (hloc : truthy (load_local_transcript fs (extract_video_id url)) = false) :
    get_or_create_transcript ytAvailable api writeOk fs url false
        save_downloaded languages =
      { transcript := none,
        meta := { video_id := extract_video_id url, source := "none".toList,
                  saved_locally := false },
        fs := fs, fetchCalled := false } := by
  unfold get_or_create_transcript
  dsimp only
  rw [hloc]
  simp

/-- Witness for C7 on the empty store, with an oracle that would return a
transcript were it consulted. -/
theorem no_local_no_fallback_returns_none_witness :
    get_or_create_transcript true (fun _ _ => Except.ok ["hi".toList])
        true [] "abc".toList false true none =
      { transcript := none,
        meta := { video_id := extract_video_id "abc".toList, source := "none".toList,
                  saved_locally := false },
        fs := [], fetchCalled := false } :=
  no_local_no_fallback_returns_none true (fun _ _ => Except.ok ["hi".toList])
    true true none [] "abc".toList (by decide)

/-- C2 counterexample: segment texts are only end-stripped, so the remote
text can carry an interior `\r`; the resolver then returns `"a\rb"` while
the subsequent load returns the newline-translated `"a\nb"`, not the same
text. -/
theorem remote_fallback_persists_counterexample :
    (get_or_create_transcript true (fun _ _ => Except.ok [['a', '\r', 'b']]) true []
        "vid".toList true true none).transcript = some ['a', '\r', 'b'] ∧
    load_local_transcript
        (get_or_create_transcript true (fun _ _ => Except.ok [['a', '\r', 'b']]) true []
          "vid".toList true true none).fs
        (extract_video_id "vid".toList) = some ['a', '\n', 'b'] ∧
    ¬ load_local_transcript
        (get_or_create_transcript true (fun _ _ => Except.ok [['a', '\r', 'b']]) true []
          "vid".toList true true none).fs
        (extract_video_id "vid".toList) = some ['a', '\r', 'b'] := by
  refine ⟨?_, ?_, ?_⟩
  · decide
  · decide
  · decide

/-- C2 (amended): with no non-empty local transcript, fallback and
persistence enabled, and the remote fetcher returning text,
`get_or_create_transcript` returns exactly that remote text with
`source = "youtube"`, and a subsequent `load_local_transcript` for the same
identifier returns that text with universal-newline translation applied —
the identical text whenever it contains no carriage return (the underlying
write succeeding, modelled by `writeOk = true`). -/
theorem remote_fallback_persists_amended (ytAvailable : Bool) (api : YtApi)
    (languages : Option (List Str)) (fs : FS) (url yt : Str)
    (hloc : truthy (load_local_transcript fs (extract_video_id url)) = false)
    (hyt : fetch_youtube_transcript ytAvailable api (extract_video_id url) languages =
      some yt) :
    (get_or_create_transcript ytAvailable api true fs url true true languages).transcript =
        some yt ∧
    (get_or_create_transcript ytAvailable api true fs url true true languages).meta.source =
        "youtube".toList ∧
    load_local_transcript
        (get_or_create_transcript ytAvailable api true fs url true true languages).fs
        (extract_video_id url) = some (univNewlines yt) ∧
    ('\r' ∉ yt →
      load_local_transcript
          (get_or_create_transcript ytAvailable api true fs url true true languages).fs
          (extract_video_id url) = some yt) := by
  have hne : yt ≠ [] := fetch_some_ne_nil hyt
  unfold get_or_create_transcript
  dsimp only
  rw [hloc, hyt, truthy_some_of_ne_nil hne]
  simp only [Bool.false_eq_true, if_false, if_true, Option.getD_some]
  refine ⟨trivial, trivial, load_after_save fs (extract_video_id url) yt, fun h => ?_⟩
  rw [load_after_save fs (extract_video_id url) yt, univNewlines_eq_self h]

/-- Witness for amended C2: empty store, an oracle returning one
carriage-return-free segment, whose text round-trips identically. -/
theorem remote_fallback_persists_amended_witness :
    (get_or_create_transcript true (fun _ _ => Except.ok ["hello".toList])
        true [] "abc".toList true true none).transcript = some "hello".toList ∧
    load_local_transcript
        (get_or_create_transcript true (fun _ _ => Except.ok ["hello".toList])
          true [] "abc".toList true true none).fs
        (extract_video_id "abc".toList) = some "hello".toList :=
  ⟨(remote_fallback_persists_amended true (fun _ _ => Except.ok ["hello".toList]) none []
      "abc".toList "hello".toList (by decide) (by decide)).1,
   (remote_fallback_persists_amended true (fun _ _ => Except.ok ["hello".toList]) none []
      "abc".toList "hello".toList (by decide) (by decide)).2.2.2 (by decide)⟩

/-- C9: `fetch_youtube_transcript` never returns an empty string — every
result is `none` or non-empty — and when every retrieved segment's text is
empty or whitespace-only the result is `none`, not the empty string. -/
theorem fetch_never_returns_empty (ytAvailable : Bool) (api : YtApi)
    (video_id : Str) (languages : Option (List Str)) :
    (∀ t, fetch_youtube_transcript ytAvailable api video_id languages = some t →
      t ≠ []) ∧
    (∀ segments, api video_id (languages.getD defaultLanguages) = Except.ok segments →
      (segments.all fun s => (pyStrip s).isEmpty) = true →
      fetch_youtube_transcript ytAvailable api video_id languages = none) := by
  constructor
  · intro t h
    exact fetch_some_ne_nil h
  · intro segments hapi hall
    unfold fetch_youtube_transcript
    by_cases hav : ytAvailable = false
    · rw [if_pos hav]
    · rw [if_neg hav]
      dsimp only
      rw [hapi]
      dsimp only
      have hfil : (segments.map pyStrip).filter (fun s => !s.isEmpty) = [] := by
        rw [List.filter_eq_nil_iff]
        intro a ha
        rcases List.mem_map.mp ha with ⟨s, hs, rfl⟩
        have := List.all_eq_true.mp hall s hs
        simp [this]
      rw [hfil]
      rfl

/-- Witness for C9: an oracle whose only segment is whitespace yields
`none`; a non-blank segment yields a provably non-empty result. -/
theorem fetch_never_returns_empty_witness :
    fetch_youtube_transcript true (fun _ _ => Except.ok ["  ".toList]) "x".toList none =
        none ∧
    "hello".toList ≠ ([] : Str) :=
  ⟨(fetch_never_returns_empty true (fun _ _ => Except.ok ["  ".toList]) "x".toList
      none).2 ["  ".toList] rfl (by decide),
   (fetch_never_returns_empty true (fun _ _ => Except.ok ["hello".toList]) "x".toList
      none).1 "hello".toList (by decide)⟩

/-- C10: in every result of `get_or_create_transcript`, `saved_locally` is
true exactly when `source = "youtube"` and `save_downloaded` was enabled;
in particular it is set whenever a remote save is attempted, whether or not
the underlying write succeeded (`writeOk` is arbitrary), so it records the
attempt, not its success. -/
theorem saved_locally_iff_youtube_save (ytAvailable : Bool) (api : YtApi)
    (writeOk use_youtube_fallback save_downloaded : Bool)
    (languages : Option (List Str)) (fs : FS) (url : Str) :
    (get_or_create_transcript ytAvailable api writeOk fs url use_youtube_fallback
        save_downloaded languages).meta.saved_locally = true ↔
    ((get_or_create_transcript ytAvailable api writeOk fs url use_youtube_fallback
        save_downloaded languages).meta.source = "youtube".toList ∧
      save_downloaded = true) := by
  have hLY : ("local".toList : Str) ≠ "youtube".toList := by decide
  have hNY : ("none".toList : Str) ≠ "youtube".toList := by decide
  unfold get_or_create_transcript
  dsimp only
  by_cases h1 : truthy (load_local_transcript fs (extract_video_id url)) = true
  · simp [h1, hLY]
  · rw [Bool.not_eq_true] at h1
    cases use_youtube_fallback with
    | false => simp [h1, hNY]
    | true =>
      by_cases h2 :
          truthy (fetch_youtube_transcript ytAvailable api (extract_video_id url)
            languages) = true
      · cases save_downloaded with
        | false => simp [h1, h2]
        | true => simp [h1, h2]
      · rw [Bool.not_eq_true] at h2
        simp [h1, h2, hNY]

/-- C5: for every standard-domain URL carrying query parameter `v=X` —
the raw string contains the standard-domain marker, the parsed netloc
contains it, and `parse_qs` maps `v` to `X` first — `extract_video_id`
returns exactly `X`. -/
theorem extract_id_standard_url_v (url X : Str) (moreVals : List Str)
    (hmark : isSubstring ytMarker url = true)
    (hnet : isSubstring ytMarker (urlparse url).netloc = true)
    (hv : (parse_qs (urlparse url).query).lookup vKey = some (X :: moreVals)) :
    extract_video_id url = X := by
  unfold extract_video_id
  rw [hmark]
  dsimp only
  rw [hnet, hv]
  simp

/-- Witness for C5 at a concrete watch URL. -/
theorem extract_id_standard_url_v_witness :
    extract_video_id "https://www.youtube.com/watch?v=abc123".toList = "abc123".toList :=
  extract_id_standard_url_v "https://www.youtube.com/watch?v=abc123".toList
    "abc123".toList [] (by decide) (by decide) (by decide)

/-- The inner preloader loop appends, in order, one index entry per video
of the collection, keyed by the catalog data. -/
theorem preloadVideos_key (ytAvailable : Bool) (api : YtApi)
    (writeOk use_youtube_fallback : Bool) (collection : Str)
    (vs : List CatalogEntry) :
    ∀ (index : List IndexEntry) (fs : FS),
      ((preloadVideos ytAvailable api writeOk use_youtube_fallback collection
          vs index fs).1).map entryKey =
        index.map entryKey ++ vs.map (fun v => (collection, v.title, v.url)) := by
  induction vs with
  | nil => intro index fs; simp [preloadVideos]
  | cons v vs ih =>
    intro index fs
    rw [preloadVideos]
    rw [ih]
    simp [preloadEntry, entryKey]

/-- The outer preloader loop appends, in order, one index entry per
catalog entry, collections in map order. -/
theorem preloadCollections_key (ytAvailable : Bool) (api : YtApi)
    (writeOk use_youtube_fallback : Bool)
    (curated_map : List (Str × List CatalogEntry)) :
    ∀ (index : List IndexEntry) (fs : FS),
      ((preloadCollections ytAvailable api writeOk use_youtube_fallback
          curated_map index fs).1).map entryKey =
        index.map entryKey ++ catalogTriples curated_map := by
  induction curated_map with
  | nil => intro index fs; simp [preloadCollections, catalogTriples]
  | cons cv rest ih =>
    intro index fs
    rw [preloadCollections]
    rw [ih, preloadVideos_key]
    simp [catalogTriples, List.append_assoc]

/-- C3: over any catalog, `preload_curated_transcripts` returns — and
serializes to the index file — exactly one index entry per catalog entry,
in catalog iteration order (collections in map order, entries within a
collection in list order). -/
theorem preload_one_entry_per_catalog_item (ytAvailable : Bool) (api : YtApi)
    (writeOk use_youtube_fallback : Bool) (st : Store)
    (curated_map : List (Str × List CatalogEntry)) :
    ((preload_curated_transcripts ytAvailable api writeOk st curated_map
        use_youtube_fallback).1).length = (catalogTriples curated_map).length ∧
    ((preload_curated_transcripts ytAvailable api writeOk st curated_map
        use_youtube_fallback).1).map entryKey = catalogTriples curated_map ∧
    (preload_curated_transcripts ytAvailable api writeOk st curated_map
        use_youtube_fallback).2.curatedIndex =
      some (preload_curated_transcripts ytAvailable api writeOk st curated_map
        use_youtube_fallback).1 := by
  have h := preloadCollections_key ytAvailable api writeOk use_youtube_fallback
    curated_map [] st.fs
  simp only [List.map_nil, List.nil_append] at h
  refine ⟨?_, ?_, rfl⟩
  · have hlen := congrArg List.length h
    rw [List.length_map] at hlen
    simpa [preload_curated_transcripts] using hlen
  · simpa [preload_curated_transcripts] using h

end YoutubeLoader
